import Mathlib

/-!
Verification of the chat streaming/session orchestration pipeline of
`app/routes/api.chat.ts` (bolt.diy). The TypeScript source is shallowly
embedded: strings are `List Char`, JS objects with optional fields are
structures of `Option`s, thrown exceptions are `Except`, and the stateful
stream orchestration (`progressCounter`, `cumulativeUsage`, the events
written to the client stream) is explicit state passing.
-/

namespace ApiChat

/-- Strings are embedded as lists of characters. -/
abbrev Str := List Char

/-- Shorthand turning a Lean string literal into the embedded representation. -/
def str (s : String) : Str := s.data

/-! ## JS string helpers: trim, split, join, substring search -/

/-- The characters removed by ECMAScript `String.prototype.trim` (WhiteSpace
and LineTerminator code points). -/
def jsWhitespace (c : Char) : Bool :=
  c = ' ' ∨ c = '\t' ∨ c = '\n' ∨ c = '\r' ∨ c = '\x0b' ∨ c = '\x0c' ∨
  c = '\u00a0' ∨ c = '\u1680' ∨ ('\u2000' ≤ c ∧ c ≤ '\u200a') ∨
  c = '\u2028' ∨ c = '\u2029' ∨ c = '\u202f' ∨ c = '\u205f' ∨
  c = '\u3000' ∨ c = '\ufeff'

/-- ECMAScript `String.prototype.trim`: strip leading and trailing whitespace. -/
def jsTrim (s : Str) : Str :=
  ((s.dropWhile jsWhitespace).reverse.dropWhile jsWhitespace).reverse

/-- JS `String.prototype.split` with a one-character separator: splitting the
empty string yields `[[]]` (JS: `''.split(';') === ['']`). -/
def splitOnChar (sep : Char) : Str → List Str
  | [] => [[]]
  | c :: cs =>
    if c = sep then [] :: splitOnChar sep cs
    else
      match splitOnChar sep cs with
      | [] => [[c]]
      | s :: rest => (c :: s) :: rest

/-- JS `Array.prototype.join` with a one-character separator. -/
def joinWith (sep : Char) : List Str → Str
  | [] => []
  | [s] => s
  | s :: rest => s ++ sep :: joinWith sep rest

/-- Whether `pat` is a prefix of `s`, as a boolean. -/
def startsWithSub (pat s : Str) : Bool :=
  match pat, s with
  | [], _ => true
  | _ :: _, [] => false
  | p :: ps, c :: cs => p = c && startsWithSub ps cs

/-- JS `String.prototype.includes`: whether `pat` occurs in `s`. -/
def containsSub (s pat : Str) : Bool :=
  match s with
  | [] => startsWithSub pat []
  | _ :: cs => startsWithSub pat s || containsSub cs pat

/-! ## `decodeURIComponent` (ECMAScript `Decode` with an empty reserved set)

`parseCookies` (api.chat.ts lines 24–40) calls the platform builtin
`decodeURIComponent`, which throws `URIError` on a malformed percent-escape
or an invalid UTF-8 escape sequence. The builtin is embedded as an
`Option`-returning decoder: `none` models the thrown `URIError`. Decoding
consumes at least one character per step, so the input length is enough fuel. -/

/-- The numeric value of a hex digit, or `none`. -/
def hexDigitVal (c : Char) : Option Nat :=
  if '0' ≤ c ∧ c ≤ '9' then some (c.toNat - '0'.toNat)
  else if 'a' ≤ c ∧ c ≤ 'f' then some (c.toNat - 'a'.toNat + 10)
  else if 'A' ≤ c ∧ c ≤ 'F' then some (c.toNat - 'A'.toNat + 10)
  else none

/-- Read one `%XY` escape: the byte and the rest of the input. -/
def readEscapeByte : Str → Option (Nat × Str)
  | '%' :: h1 :: h2 :: rest => do
    let d1 ← hexDigitVal h1
    let d2 ← hexDigitVal h2
    pure (16 * d1 + d2, rest)
  | _ => none

/-- Read `k` UTF-8 continuation bytes, each written as a `%XY` escape and lying
in `0x80–0xBF`; returns their 6-bit payloads accumulated onto `acc`. -/
def readContinuations : Nat → Nat → Str → Option (Nat × Str)
  | 0, acc, s => some (acc, s)
  | k + 1, acc, s => do
    let (b, rest) ← readEscapeByte s
    if 0x80 ≤ b ∧ b < 0xC0 then readContinuations k (acc * 64 + (b - 0x80)) rest
    else none

/-- One decoding step after a lead byte `b`: the decoded code point and the
remaining input. Follows strict UTF-8: overlong encodings, surrogate code
points and values above `0x10FFFF` are rejected. -/
def decodeUtf8Tail (b : Nat) (rest : Str) : Option (Nat × Str) :=
  if b < 0x80 then some (b, rest)
  else if b < 0xC2 then none
  else if b < 0xE0 then do
    let (v, s) ← readContinuations 1 (b - 0xC0) rest
    if 0x80 ≤ v then some (v, s) else none
  else if b < 0xF0 then do
    let (v, s) ← readContinuations 2 (b - 0xE0) rest
    if 0x800 ≤ v ∧ ¬(0xD800 ≤ v ∧ v ≤ 0xDFFF) then some (v, s) else none
  else if b < 0xF5 then do
    let (v, s) ← readContinuations 3 (b - 0xF0) rest
    if 0x10000 ≤ v ∧ v ≤ 0x10FFFF then some (v, s) else none
  else none

/-- Fuelled decoding loop; the fuel is an upper bound on the input length. -/
def uriDecodeAux : Nat → Str → Option Str
  | _, [] => some []
  | 0, _ :: _ => none
  | fuel + 1, s@('%' :: _) => do
    let (b, rest) ← readEscapeByte s
    let (v, rest2) ← decodeUtf8Tail b rest
    let tail ← uriDecodeAux fuel rest2
    pure (Char.ofNat v :: tail)
  | fuel + 1, c :: cs => do
    let tail ← uriDecodeAux fuel cs
    pure (c :: tail)

/-- ECMAScript `decodeURIComponent`; `none` is a thrown `URIError`. -/
def uriDecode (s : Str) : Option Str := uriDecodeAux s.length s

/-! ## `parseCookies` (api.chat.ts lines 24–40)

```ts
function parseCookies(cookieHeader: string): Record<string, string> {
  const cookies: Record<string, string> = {};
  const items = cookieHeader.split(';').map((cookie) => cookie.trim());
  items.forEach((item) => {
    const [name, ...rest] = item.split('=');
    if (name && rest) {
      const decodedName = decodeURIComponent(name.trim());
      const decodedValue = decodeURIComponent(rest.join('=').trim());
      cookies[decodedName] = decodedValue;
    }
  });
  return cookies;
}
```
`rest` is always an array (truthy), so the guard is `name ≠ ''`. The record
is an association list with JS object-assignment semantics (`upsert`). -/

/-- JS `cookies[name] = value`: replace an existing binding in place, else
append at the end. -/
def upsert (k v : Str) : List (Str × Str) → List (Str × Str)
  | [] => [(k, v)]
  | (k', v') :: rest =>
    if k' = k then (k, v) :: rest else (k', v') :: upsert k v rest

/-- Lookup in the embedded record. -/
def lookupRec (k : Str) : List (Str × Str) → Option Str
  | [] => none
  | (k', v') :: rest => if k' = k then some v' else lookupRec k rest

/-- The body of the `forEach` over one (already trimmed) item,
`const [name, ...rest] = item.split('=')` then the guarded assignment; `none`
models a thrown `URIError` escaping `parseCookies`. `split` never returns an
empty array, and a falsy (empty) `name` skips the item. -/
def parseCookiesItem (cookies : List (Str × Str)) (item : Str) :
    Option (List (Str × Str)) :=
  match splitOnChar '=' item with
  | [] => some cookies
  | name :: rest =>
    if name = [] then some cookies
    else do
      let decodedName ← uriDecode (jsTrim name)
      let decodedValue ← uriDecode (jsTrim (joinWith '=' rest))
      pure (upsert decodedName decodedValue cookies)

/-- The `forEach` loop over the trimmed items, threading the cookies record;
`none` propagates a thrown `URIError`. -/
def parseCookiesLoop : List (Str × Str) → List Str → Option (List (Str × Str))
  | cookies, [] => some cookies
  | cookies, item :: rest =>
    match parseCookiesItem cookies item with
    | none => none
    | some cookies' => parseCookiesLoop cookies' rest

/-- `parseCookies` from api.chat.ts lines 24–40. -/
def parseCookies (cookieHeader : Str) : Option (List (Str × Str)) :=
  parseCookiesLoop [] ((splitOnChar ';' cookieHeader).map jsTrim)

/-- Whether one (already trimmed) item's `decodeURIComponent` calls succeed:
items with an empty name are skipped without decoding. -/
def itemDecodable (item : Str) : Bool :=
  match splitOnChar '=' item with
  | [] => true
  | name :: rest =>
    decide (name = []) ||
      ((uriDecode (jsTrim name)).isSome &&
       (uriDecode (jsTrim (joinWith '=' rest))).isSome)

/-- Whether every item of the header decodes, i.e. `parseCookies` does not
throw `URIError`. -/
def itemsDecodable (cookieHeader : Str) : Bool :=
  ((splitOnChar ';' cookieHeader).map jsTrim).all itemDecodable

/-! ## Token usage accumulation (api.chat.ts lines 76–80, 151–175, 221–245, 301–325)

The identical accumulation snippet appears in three `onFinish` callbacks
(`createSummary`'s, `selectContext`'s and the generation `options.onFinish`):
prompt tokens are read from `promptTokens`, falling back to `inputTokens`,
else 0; completion tokens from `completionTokens`, falling back to
`outputTokens`, else 0; the total is `totalTokens` verbatim when present and
`promptTokens + completionTokens` otherwise. Field presence on the provider
object is an `Option`. -/

/-- A provider-reported usage object; `some` is field presence (`'f' in usage`). -/
structure UsageRaw where
  promptTokens : Option Int := none
  completionTokens : Option Int := none
  inputTokens : Option Int := none
  outputTokens : Option Int := none
  totalTokens : Option Int := none
deriving DecidableEq, Repr

/-- The running `cumulativeUsage` record (lines 76–80). -/
structure Usage where
  completionTokens : Int
  promptTokens : Int
  totalTokens : Int
deriving DecidableEq, Repr

/-- The initial `cumulativeUsage` value (lines 76–80). -/
def Usage.zero : Usage := ⟨0, 0, 0⟩

/-- Prompt tokens of one sub-call: `'promptTokens' in usage ? ... :
'inputTokens' in usage ? ... : 0`. -/
def readPromptTokens (u : UsageRaw) : Int :=
  match u.promptTokens with
  | some v => v
  | none => match u.inputTokens with
    | some v => v
    | none => 0

/-- Completion tokens of one sub-call, with the `outputTokens` fallback. -/
def readCompletionTokens (u : UsageRaw) : Int :=
  match u.completionTokens with
  | some v => v
  | none => match u.outputTokens with
    | some v => v
    | none => 0

/-- Total tokens of one sub-call: `totalTokens` verbatim when present, else
`promptTokens + completionTokens`. -/
def readTotalTokens (u : UsageRaw) : Int :=
  match u.totalTokens with
  | some v => v
  | none => readPromptTokens u + readCompletionTokens u

/-- JS `x || 0` on an (integral, non-NaN) number: 0 stays 0, others pass. -/
def jsOrZero (x : Int) : Int := if x = 0 then 0 else x

/-- One `cumulativeUsage.* += ... || 0` step; `none` models an absent
`resp.usage` (the `if (resp.usage)` guard skips the accumulation). -/
def accumUsage (cum : Usage) (usage : Option UsageRaw) : Usage :=
  match usage with
  | none => cum
  | some u =>
    { completionTokens := cum.completionTokens + jsOrZero (readCompletionTokens u)
      promptTokens := cum.promptTokens + jsOrZero (readPromptTokens u)
      totalTokens := cum.totalTokens + jsOrZero (readTotalTokens u) }

/-! ## Stream error classification (`onError`, api.chat.ts lines 455–488)

`onError` is a chain of substring tests over `error.message || 'Unknown
error'`, each returning a fixed user-facing string; the last line passes the
raw message through. The chain is split into a bucket classifier and the
per-bucket message so "falls through to Unknown" is a statement about the
bucket, not about string coincidence. -/

/-- The error taxonomy buckets of the `onError` chain, in check order. -/
inductive ErrBucket
  | invalidModel
  | invalidJson
  | auth
  | tokenLimit
  | rateLimit
  | network
  | unknown
deriving DecidableEq, Repr

/-- The branch conditions of `onError`, in source order (lines 459–487). -/
def classifyError (msg : Str) : ErrBucket :=
  if containsSub msg (str "model") && containsSub msg (str "not found") then .invalidModel
  else if containsSub msg (str "Invalid JSON response") then .invalidJson
  else if containsSub msg (str "API key") || containsSub msg (str "unauthorized")
      || containsSub msg (str "authentication") then .auth
  else if containsSub msg (str "token") && containsSub msg (str "limit") then .tokenLimit
  else if containsSub msg (str "rate limit") || containsSub msg (str "429") then .rateLimit
  else if containsSub msg (str "network") || containsSub msg (str "timeout") then .network
  else .unknown

/-- The string each branch of `onError` returns. -/
def bucketMessage (b : ErrBucket) (msg : Str) : Str :=
  match b with
  | .invalidModel => str "Custom error: Invalid model selected. Please check that the model name is correct and available."
  | .invalidJson => str "Custom error: The AI service returned an invalid response. This may be due to an invalid model name, API rate limiting, or server issues. Try selecting a different model or check your API key."
  | .auth => str "Custom error: Invalid or missing API key. Please check your API key configuration."
  | .tokenLimit => str "Custom error: Token limit exceeded. The conversation is too long for the selected model. Try using a model with larger context window or start a new conversation."
  | .rateLimit => str "Custom error: API rate limit exceeded. Please wait a moment before trying again."
  | .network => str "Custom error: Network error. Please check your internet connection and try again."
  | .unknown => str "Custom error: " ++ msg

/-- `onError` on an already-defaulted message string. -/
def onErrorMessage (msg : Str) : Str := bucketMessage (classifyError msg) msg

/-- The full `onError` callback: `error.message || 'Unknown error'` then the
branch chain (an absent or empty message falls back to the default text). -/
def onError (message : Option Str) : Str :=
  onErrorMessage (match message with
    | some s => if s = [] then str "Unknown error" else s
    | none => str "Unknown error")

/-! ## Pre-stream failure handling (`chatAction`'s catch, api.chat.ts lines 492–533)

A throw before `new Response(uiMessageStream, ...)` is caught at line 501 and
turned into a JSON error response; a successfully opened stream returns
status 200 (line 493). -/

/-- The fields of a thrown JS error object that the catch block reads. -/
structure JsErr where
  message : Option Str := none
  statusCode : Option Int := none
  isRetryable : Option Bool := none
  provider : Option Str := none

/-- The JSON body `{error, message, statusCode, isRetryable, provider}`. -/
structure ErrBody where
  error : Bool
  message : Str
  statusCode : Int
  isRetryable : Bool
  provider : Str
deriving DecidableEq, Repr

/-- JS `x || d` for an optional string field: absent and empty both fall back. -/
def jsOrStr (x : Option Str) (d : Str) : Str :=
  match x with
  | some s => if s = [] then d else s
  | none => d

/-- JS `x || d` for an optional number field: absent and 0 both fall back. -/
def jsOrInt (x : Option Int) (d : Int) : Int :=
  match x with
  | some v => if v = 0 then d else v
  | none => d

/-- The `errorResponse` object built at lines 504–510. -/
def errorResponse (e : JsErr) : ErrBody :=
  { error := true
    message := jsOrStr e.message (str "An unexpected error occurred")
    statusCode := jsOrInt e.statusCode 500
    isRetryable := e.isRetryable ≠ some false
    provider := jsOrStr e.provider (str "unknown") }

/-- Whether `error.message?.includes('API key')` holds (optional chaining:
an absent message is falsy). -/
def messageHasApiKey (e : JsErr) : Bool :=
  match e.message with
  | some s => containsSub s (str "API key")
  | none => false

/-- The outcome of `chatAction`: the stream response was built, or a
synchronous failure was caught. -/
inductive ActionOutcome
  | streamOpened
  | failed (e : JsErr)

/-- The HTTP status and (for failures) JSON body `chatAction` responds with
(lines 492–533). -/
def chatActionResponse : ActionOutcome → Int × Option ErrBody
  | .streamOpened => (200, none)
  | .failed e =>
    if messageHasApiKey e then
      (401, some { errorResponse e with
                     message := str "Invalid or missing API key"
                     statusCode := 401
                     isRetryable := false })
    else
      ((errorResponse e).statusCode, some (errorResponse e))

/-! ## Tool-call mediation (`onStepFinish`, api.chat.ts lines 288–300)

Each discovered tool call is forwarded to `mcpService.processToolCall` with
`args: (toolCall as any).input || (toolCall as any).args || {}` — JS
truthiness coalescing over the two historical argument shapes. -/

/-- A JSON value, with JS truthiness. -/
inductive JsonVal
  | jnull
  | jbool (b : Bool)
  | jnum (n : Int)
  | jstr (s : Str)
  | jarr (elems : List JsonVal)
  | jobj (fields : List (Str × JsonVal))

/-- JS truthiness of a JSON value (objects and arrays are always truthy). -/
def JsonVal.truthy : JsonVal → Bool
  | .jnull => false
  | .jbool b => b
  | .jnum n => n ≠ 0
  | .jstr s => s ≠ []
  | .jarr _ => true
  | .jobj _ => true

/-- JS `x || d` on an optional JSON-valued property. -/
def jsOrVal (x : Option JsonVal) (d : JsonVal) : JsonVal :=
  match x with
  | some v => if v.truthy then v else d
  | none => d

/-- A tool call as the streaming library reports it: the arguments may arrive
under `input` (new shape) or `args` (old shape). -/
structure ToolCall where
  toolCallId : Str
  toolName : Str
  input : Option JsonVal := none
  args : Option JsonVal := none

/-- What `processToolCall` receives for one tool call. -/
structure MediatorCall where
  toolCallId : Str
  toolName : Str
  args : JsonVal

/-- The argument coalescing `input || args || {}` (line 295). -/
def coalesceArgs (tc : ToolCall) : JsonVal :=
  jsOrVal tc.input (jsOrVal tc.args (.jobj []))

/-- `onStepFinish` (lines 288–300): every discovered tool call is forwarded to
the mediator, in order, with the coalesced arguments. -/
def onStepFinish (toolCalls : List ToolCall) : List MediatorCall :=
  toolCalls.map fun tc => ⟨tc.toolCallId, tc.toolName, coalesceArgs tc⟩

/-! ## Messages and the client event stream

`UIMessage`s carry an ordered list of parts; `getMessageText` (api.chat.ts
lines 86–108) joins the text parts with newlines. `convertToCoreMessages` is
the external `ai` library conversion, modelled as keeping each message's role
and its text content. -/

/-- A message role. -/
inductive Role
  | user
  | assistant
  | system
deriving DecidableEq, Repr

/-- One part of a UIMessage (only the `type` and `text` fields are read). -/
structure MsgPart where
  type : Str
  text : Str
deriving DecidableEq, Repr

/-- A UIMessage as the route reads it. -/
structure UIMsg where
  id : Str
  role : Role
  parts : List MsgPart
deriving DecidableEq, Repr

/-- `getMessageText` (lines 86–108): join the `text` of the parts whose `type`
is `'text'` with newlines (the legacy string-content branches do not arise for
messages that carry a parts array). -/
def getMessageText (m : UIMsg) : Str :=
  joinWith '\n' ((m.parts.filter fun p => p.type = str "text").map MsgPart.text)

/-- A core message as passed to `streamText`. -/
structure CoreMsg where
  role : Role
  content : Str
deriving DecidableEq, Repr

/-- The external `ai` library's `convertToCoreMessages`, modelled as keeping
each message's role and text content. -/
def convertToCoreMessages (msgs : List UIMsg) : List CoreMsg :=
  msgs.map fun m => ⟨m.role, getMessageText m⟩

/-- The tagged events the route writes to the client stream (the generated
text deltas pass through the merged model stream and are not events of this
union). -/
inductive StreamEvent
  | progress (label : Str) (status : Str) (order : Nat) (message : Str)
  | chatSummary (summary : Str) (chatId : Option Str)
  | codeContext (files : List Str)
  | usage (value : Usage)
deriving DecidableEq, Repr

/-- The request-scoped mutable state of `chatAction`: the usage accumulator
(lines 76–80), the progress counter (line 81), the `SwitchableStream`'s switch
counter, and the events written so far. -/
structure ChatState where
  cumulativeUsage : Usage
  progressCounter : Nat
  switches : Nat
  events : List StreamEvent
deriving DecidableEq, Repr

/-- Modelled from the spec: `SwitchableStream` (~/lib/.server/llm/switchable-stream)
is not under src/; per spec §4.2 its switch count starts at zero and is "the
authoritative count checked against the budget". `cumulativeUsage` starts at
zero (lines 76–80) and `progressCounter` at 1 (line 81). -/
def initialState : ChatState :=
  { cumulativeUsage := Usage.zero, progressCounter := 1, switches := 0, events := [] }

/-- One `writer.write` of a progress annotation with `order: progressCounter++`
(lines 130–139 and the other progress writes). -/
def writeProgress (label status message : Str) (st : ChatState) : ChatState :=
  { st with
      events := st.events ++ [.progress label status st.progressCounter message]
      progressCounter := st.progressCounter + 1 }

/-- One `writer.write` of a non-progress event. -/
def writeEvent (e : StreamEvent) (st : ChatState) : ChatState :=
  { st with events := st.events ++ [e] }

/-! ## Continuation directive extraction

`extractPropertiesFromMessage` lives in `~/lib/.server/llm/utils`, which is
not under src/. -/

/-- The suffix of `s` after the first occurrence of `pat`, or `none`. -/
def afterSub (pat : Str) : Str → Option Str
  | [] => if startsWithSub pat [] then some [] else none
  | s@(_ :: t) =>
    if startsWithSub pat s then some (s.drop pat.length) else afterSub pat t

/-- The characters of `s` before the first occurrence of `stop`, or `none`
when `stop` does not occur. -/
def beforeChar (stop : Char) : Str → Option Str
  | [] => none
  | c :: cs => if c = stop then some [] else (beforeChar stop cs).map (c :: ·)

/-- The text between the first occurrence of `label` and the next `']'`. -/
def extractTag (label content : Str) : Option Str :=
  (afterSub label content).bind (beforeChar ']')

/-- Modelled from the spec: `extractPropertiesFromMessage`
(~/lib/.server/llm/utils) is not under src/. Per spec §4.2, the model and
provider for a continuation are "extracted from the most recent user
message's embedded directive, not re-derived from request defaults": the
`[Model: ...]` and `[Provider: ...]` tags are read from the message content,
with the request-level defaults only as fallback when a tag is absent. The
defaults are passed in as arguments. -/
def extractPropertiesFromMessage (defaultModel defaultProvider content : Str) :
    Str × Str :=
  ((extractTag (str "[Model: ") content).getD defaultModel,
   (extractTag (str "[Provider: ") content).getD defaultProvider)

/-- The continuation directive user message content (api.chat.ts line 369):
`[Model: ${model}]\n\n[Provider: ${provider}]\n\n${CONTINUE_PROMPT}`.
`CONTINUE_PROMPT` (~/lib/common/prompts/prompts) is not under src/ and is
passed in as an argument (spec §4.2 calls it "a fixed continuation
directive"). -/
def continuationDirective (continuePrompt model provider : Str) : Str :=
  str "[Model: " ++ model ++ str "]\n\n[Provider: " ++ provider ++ str "]\n\n"
    ++ continuePrompt

/-! ## The generation `onFinish` callback (api.chat.ts lines 301–402)

Invoked once per finished stream segment with the segment's text, finish
reason and usage. It accumulates usage (lines 304–325); on a natural finish
it writes the cumulative usage event and the `response`/`complete` progress
event and returns (lines 327–353); on a `length` finish it checks the segment
budget (lines 355–357) and issues exactly one continuation `streamText` call
with two messages appended (lines 363–402). A thrown error is `Except.error`;
the returned `Option ContinuationCall` is the continuation model call the
handler issues (`none`: no further call). -/

/-- The arguments of one `onFinish` invocation. -/
structure FinishInput where
  text : Str
  finishReason : Str
  usage : Option UsageRaw
deriving Repr

/-- A continuation `streamText` call issued by `onFinish`. -/
structure ContinuationCall where
  messages : List CoreMsg
deriving DecidableEq, Repr

/-- `options.onFinish` (lines 301–402). `maxResponseSegments` is
`MAX_RESPONSE_SEGMENTS` (~/lib/.server/llm/constants, not under src/);
`continuePrompt`, `defaultModel`, `defaultProvider` are the other imported
constants. An absent last user message makes the JS code dereference
`undefined`, modelled as a thrown `TypeError`. -/
def onFinish (maxResponseSegments : Nat)
    (continuePrompt defaultModel defaultProvider : Str)
    (processedMessages : List UIMsg) (st : ChatState) (inp : FinishInput) :
    Except Str (ChatState × Option ContinuationCall) :=
  let cum := accumUsage st.cumulativeUsage inp.usage
  if inp.finishReason ≠ str "length" then
    .ok (writeProgress (str "response") (str "complete") (str "Response Generated")
           (writeEvent (.usage cum) { st with cumulativeUsage := cum }), none)
  else if maxResponseSegments ≤ st.switches then
    .error (str "Cannot continue message: Maximum segments reached")
  else
    match (processedMessages.filter fun m => m.role = .user).getLast? with
    | none => .error (str "TypeError: cannot read properties of undefined")
    | some lastUserMessage =>
      let props := extractPropertiesFromMessage defaultModel defaultProvider
        (getMessageText lastUserMessage)
      let coreMessages := convertToCoreMessages processedMessages ++
        [⟨.assistant, inp.text⟩,
         ⟨.user, continuationDirective continuePrompt props.1 props.2⟩]
      .ok ({ st with cumulativeUsage := cum }, some ⟨coreMessages⟩)

/-- Run `onFinish` over the finish events of the successive stream segments
of one logical response, in order (continuations are strictly sequential; a
thrown error ends the response). -/
def runSegments (maxResponseSegments : Nat)
    (continuePrompt defaultModel defaultProvider : Str)
    (processedMessages : List UIMsg) :
    ChatState → List FinishInput → Except Str ChatState
  | st, [] => .ok st
  | st, inp :: rest =>
    match onFinish maxResponseSegments continuePrompt defaultModel defaultProvider
        processedMessages st inp with
    | .error e => .error e
    | .ok (st1, _) => runSegments maxResponseSegments continuePrompt defaultModel
        defaultProvider processedMessages st1 rest

/-! ## The `execute` body before the first model call (api.chat.ts lines 114–453)

External sub-calls are inputs: `processToolInvocations` (the Tool-Call
Mediator's pure pre-transform, spec §4.4; `MCPService` is not under src/) is
a function argument, and the results of `createSummary` / `selectContext`
(~/lib/.server/llm, not under src/) arrive through a `ContextOracle`. -/

/-- What the two context sub-calls return: the summary string and its token
usage, the selected file map and its token usage. -/
structure ContextOracle where
  summary : Str
  summaryUsage : Option UsageRaw
  filteredFiles : List (Str × Str)
  selectUsage : Option UsageRaw

/-- The request fields `execute` reads. -/
structure ChatRequest where
  messages : List UIMsg
  files : List (Str × Str)
  contextOptimization : Bool

/-- Modelled from the spec: `getFilePaths` (~/lib/.server/llm/select-context)
is not under src/; the spec's FileMap is a "mapping from absolute-in-workspace
path → file content string", so the file paths are the map's keys. -/
def getFilePaths (files : List (Str × Str)) : List Str :=
  files.map Prod.fst

/-- Strip the `WORK_DIR` prefix from a context file path (lines 256–264):
`path.replace(WORK_DIR, '')` guarded by `path.startsWith(WORK_DIR)`. -/
def stripWorkDir (workDir path : Str) : Str :=
  if startsWithSub workDir path then path.drop workDir.length else path

/-- What the `execute` body has produced when it reaches the first
`streamText` call (line 416). -/
structure ExecuteSetup where
  st : ChatState
  processedMessages : List UIMsg
  firstCallMessages : List CoreMsg
  contextFiles : Option (List (Str × Str))
  summary : Option Str
  messageSliceId : Nat

/-- The `execute` body from line 114 up to the first `streamText` call at
line 416: tool-invocation pre-processing, the optional context-optimization
block (lines 128–280) with its progress/summary/context events and usage
accumulation, and the `response` in-progress event (lines 405–414). -/
def executePre (workDir : Str) (processToolInvocations : List UIMsg → List UIMsg)
    (oracle : ContextOracle) (req : ChatRequest) : ExecuteSetup :=
  let filePaths := getFilePaths req.files
  let processedMessages := processToolInvocations req.messages
  let messageSliceId := if 3 < processedMessages.length then processedMessages.length - 3 else 0
  if filePaths ≠ [] ∧ req.contextOptimization then
    let st1 := writeProgress (str "summary") (str "in-progress") (str "Analysing Request") initialState
    let st2 := { st1 with cumulativeUsage := accumUsage st1.cumulativeUsage oracle.summaryUsage }
    let st3 := writeProgress (str "summary") (str "complete") (str "Analysis Complete") st2
    let st4 := writeEvent (.chatSummary oracle.summary (processedMessages.getLast?.map UIMsg.id)) st3
    let st5 := writeProgress (str "context") (str "in-progress") (str "Determining Files to Read") st4
    let st6 := { st5 with cumulativeUsage := accumUsage st5.cumulativeUsage oracle.selectUsage }
    let st7 := writeEvent (.codeContext ((oracle.filteredFiles.map Prod.fst).map (stripWorkDir workDir))) st6
    let st8 := writeProgress (str "context") (str "complete") (str "Code Files Selected") st7
    let st9 := writeProgress (str "response") (str "in-progress") (str "Generating Response") st8
    ⟨st9, processedMessages, convertToCoreMessages processedMessages,
      some oracle.filteredFiles, some oracle.summary, messageSliceId⟩
  else
    let st1 := writeProgress (str "response") (str "in-progress") (str "Generating Response") initialState
    ⟨st1, processedMessages, convertToCoreMessages processedMessages,
      none, none, messageSliceId⟩

/-! ## Projections of the emitted event list used by the claims -/

/-- The `order` values of the progress events, in emission order. -/
def progressOrders (events : List StreamEvent) : List Nat :=
  events.filterMap fun e =>
    match e with
    | .progress _ _ o _ => some o
    | _ => none

/-- The labels of the progress events, in emission order. -/
def progressLabels (events : List StreamEvent) : List Str :=
  events.filterMap fun e =>
    match e with
    | .progress l _ _ _ => some l
    | _ => none

/-- The payloads of the usage events, in emission order. -/
def usageValues (events : List StreamEvent) : List Usage :=
  events.filterMap fun e =>
    match e with
    | .usage v => some v
    | _ => none

/-- Whether an event is a `chatSummary` or `codeContext` content event. -/
def isContextEvent : StreamEvent → Bool
  | .chatSummary _ _ => true
  | .codeContext _ => true
  | _ => false

end ApiChat

namespace ApiChat

/-! # Theorems

First general-purpose lemmas about the embedded operations, then one theorem
per claim (witnesses and counterexamples alongside). -/

theorem jsOrZero_eq (x : Int) : jsOrZero x = x := by
  unfold jsOrZero
  split <;> simp_all

/-! ## Cookie parsing lemmas (claim C10) -/

theorem parseCookiesItem_isSome (cookies : List (Str × Str)) (item : Str)
    (h : itemDecodable item = true) : (parseCookiesItem cookies item).isSome = true := by
  unfold itemDecodable at h
  unfold parseCookiesItem
  cases hsplit : splitOnChar '=' item with
  | nil => simp
  | cons name rest =>
    rw [hsplit] at h
    by_cases hn : name = []
    · simp [hn]
    · simp [hn, Option.isSome_iff_exists] at h
      obtain ⟨⟨dn, hdn⟩, dv, hdv⟩ := h
      simp [hn, hdn, hdv]

theorem parseCookiesLoop_isSome (items : List Str) :
    ∀ cookies : List (Str × Str), items.all itemDecodable = true →
      (parseCookiesLoop cookies items).isSome = true := by
  induction items with
  | nil => intro cookies _; simp [parseCookiesLoop]
  | cons item rest ih =>
    intro cookies h
    simp only [List.all_cons, Bool.and_eq_true] at h
    have hitem := parseCookiesItem_isSome cookies item h.1
    unfold parseCookiesLoop
    obtain ⟨cookies', hc⟩ := Option.isSome_iff_exists.mp hitem
    rw [hc]
    exact ih cookies' h.2

theorem splitOnChar_no_sep (sep : Char) (s : Str) (h : sep ∉ s) :
    splitOnChar sep s = [s] := by
  induction s with
  | nil => rfl
  | cons c cs ih =>
    simp only [List.mem_cons, not_or] at h
    unfold splitOnChar
    rw [if_neg (by exact fun hc => h.1 hc.symm), ih h.2]

theorem lookupRec_upsert (k v : Str) (cookies : List (Str × Str)) :
    lookupRec k (upsert k v cookies) = some v := by
  induction cookies with
  | nil => simp [upsert, lookupRec]
  | cons kv rest ih =>
    obtain ⟨k', v'⟩ := kv
    unfold upsert
    by_cases hk : k' = k
    · simp [hk, lookupRec]
    · simp [hk, lookupRec, ih]

/-- Claim C10, counterexample: `parseCookies` is not total. On the header
`"a=%"` the item's value is the malformed percent-escape `"%"`, and
`decodeURIComponent` throws `URIError` (modelled by `none`), so the claimed
totality fails at this concrete input. -/
theorem parseCookies_total_cex : parseCookies (str "a=%") = none := by decide

/-- Claim C10 (amended): on every cookie header all of whose items decode,
`parseCookies` succeeds; an item whose name before the first `'='` is
non-empty produces exactly one record update binding the decoded trimmed name
to the decoded trimmed `'='`-rejoined remainder (so embedded `'='` characters
are reconstructed intact); an item with no `'='` binds its name to the empty
string; updates run left to right and a repeated name keeps the last
occurrence's value. -/
theorem parseCookies_amended :
    (∀ h : Str, itemsDecodable h = true → (parseCookies h).isSome = true) ∧
    (∀ (cookies : List (Str × Str)) (item name : Str) (rest : List Str) (dn dv : Str),
      splitOnChar '=' item = name :: rest → name ≠ [] →
      uriDecode (jsTrim name) = some dn →
      uriDecode (jsTrim (joinWith '=' rest)) = some dv →
      parseCookiesItem cookies item = some (upsert dn dv cookies)) ∧
    (∀ (cookies : List (Str × Str)) (item dn : Str),
      '=' ∉ item → item ≠ [] → uriDecode (jsTrim item) = some dn →
      parseCookiesItem cookies item = some (upsert dn [] cookies)) ∧
    (∀ (k v : Str) (cookies : List (Str × Str)),
      lookupRec k (upsert k v cookies) = some v) ∧
    parseCookies (str "a=b=c") = some [(str "a", str "b=c")] ∧
    parseCookies (str "x=1; x=2") = some [(str "x", str "2")] := by
  refine ⟨?_, ?_, ?_, lookupRec_upsert, by decide, by decide⟩
  · intro h hd
    exact parseCookiesLoop_isSome _ [] hd
  · intro cookies item name rest dn dv hsplit hname hdn hdv
    unfold parseCookiesItem
    rw [hsplit]
    simp [hname, hdn, hdv]
  · intro cookies item dn hno hne hdn
    unfold parseCookiesItem
    rw [splitOnChar_no_sep '=' item hno]
    have hval : uriDecode (jsTrim (joinWith '=' ([] : List Str))) = some [] := by rfl
    simp [hne, hdn, hval]

/-- Claim C10, witness: the amended statement instantiated on a concrete
header with an embedded `'='`, a missing `'='` and a repeated name. -/
theorem parseCookies_amended_witness :
    (parseCookies (str "sid=abc=def; flag; sid=zzz")).isSome = true :=
  parseCookies_amended.1 (str "sid=abc=def; flag; sid=zzz") (by decide)

/-! ## Error classification (claim C6) -/

/-- Claim C6, counterexample: the message `"token rate limit exceeded"`
contains the substring `"rate limit"`, yet the classifier returns the
Token-limit message, not the Rate-limit message, because the token/limit
branch is checked first — so "always returns the Rate-limit user message
regardless of which other checked substrings the message contains" fails at
this concrete input. -/
theorem rate_limit_classification_cex :
    containsSub (str "token rate limit exceeded") (str "rate limit") = true ∧
    classifyError (str "token rate limit exceeded") = ErrBucket.tokenLimit ∧
    onErrorMessage (str "token rate limit exceeded") ≠
      bucketMessage ErrBucket.rateLimit (str "token rate limit exceeded") := by
  refine ⟨by decide, by decide, by decide⟩

/-- Claim C6 (amended): a message containing `"rate limit"` never falls
through to the Unknown pass-through bucket; and when it does not also match
one of the earlier-checked branches (model-not-found, invalid JSON,
authentication, token+limit), it classifies as Rate-limit and yields the
Rate-limit user message. -/
theorem rate_limit_classification_amended :
    ∀ msg : Str, containsSub msg (str "rate limit") = true →
      classifyError msg ≠ ErrBucket.unknown ∧
      ((containsSub msg (str "model") = false ∨ containsSub msg (str "not found") = false) →
       containsSub msg (str "Invalid JSON response") = false →
       containsSub msg (str "API key") = false →
       containsSub msg (str "unauthorized") = false →
       containsSub msg (str "authentication") = false →
       containsSub msg (str "token") = false →
       classifyError msg = ErrBucket.rateLimit ∧
       onErrorMessage msg =
         str "Custom error: API rate limit exceeded. Please wait a moment before trying again.") := by
  intro msg h
  constructor
  · unfold classifyError
    split_ifs <;> simp_all
  · intro h1 h2 h3 h4 h5 h6
    have hcl : classifyError msg = ErrBucket.rateLimit := by
      rcases h1 with h1 | h1 <;> simp [classifyError, h, h1, h2, h3, h4, h5, h6]
    exact ⟨hcl, by simp [onErrorMessage, hcl, bucketMessage]⟩

/-- Claim C6, witness: a plain rate-limit message classifies as Rate-limit
and never as Unknown. -/
theorem rate_limit_classification_amended_witness :
    classifyError (str "please wait: rate limit reached") ≠ ErrBucket.unknown ∧
    classifyError (str "please wait: rate limit reached") = ErrBucket.rateLimit := by
  have h := rate_limit_classification_amended (str "please wait: rate limit reached") (by decide)
  exact ⟨h.1, (h.2 (by decide) (by decide) (by decide) (by decide) (by decide) (by decide)).1⟩

/-! ## Pre-stream failure responses (claim C7) -/

/-- Claim C7: a successfully opened stream responds 200; a pre-stream failure
whose message contains `"API key"` responds 401 with the fixed message and
`isRetryable := false`; any other pre-stream failure responds with the
error's own `statusCode` (defaulting to 500) and is retryable unless the
error explicitly sets `isRetryable` to `false` — each with the JSON body
`{error, message, statusCode, isRetryable, provider}`. -/
theorem chatAction_pre_stream_errors :
    chatActionResponse .streamOpened = (200, none) ∧
    (∀ e : JsErr, messageHasApiKey e = true →
      chatActionResponse (.failed e) =
        (401, some { error := true
                     message := str "Invalid or missing API key"
                     statusCode := 401
                     isRetryable := false
                     provider := jsOrStr e.provider (str "unknown") })) ∧
    (∀ e : JsErr, messageHasApiKey e = false →
      chatActionResponse (.failed e) =
        (jsOrInt e.statusCode 500,
         some { error := true
                message := jsOrStr e.message (str "An unexpected error occurred")
                statusCode := jsOrInt e.statusCode 500
                isRetryable := e.isRetryable ≠ some false
                provider := jsOrStr e.provider (str "unknown") })) := by
  refine ⟨rfl, ?_, ?_⟩ <;> intro e he <;> simp [chatActionResponse, errorResponse, he]

/-- Claim C7, witness: a thrown error mentioning a missing API key becomes a
401, and a plain network failure keeps its own status code. -/
theorem chatAction_pre_stream_errors_witness :
    chatActionResponse (.failed ⟨some (str "No API key found"), none, none, none⟩) =
      (401, some ⟨true, str "Invalid or missing API key", 401, false, str "unknown"⟩) ∧
    chatActionResponse (.failed ⟨some (str "boom"), some 503, none, some (str "OpenAI")⟩) =
      (503, some ⟨true, str "boom", 503, true, str "OpenAI"⟩) := by
  constructor
  · rw [chatAction_pre_stream_errors.2.1 ⟨some (str "No API key found"), none, none, none⟩ (by decide)]
    simp [jsOrStr]
  · rw [chatAction_pre_stream_errors.2.2 ⟨some (str "boom"), some 503, none, some (str "OpenAI")⟩ (by decide)]
    simp [jsOrStr, jsOrInt, str]

/-! ## Tool-call argument coalescing (claim C8) -/

/-- Claim C8, counterexample: a tool call whose `input` property is present
but falsy (the empty string, a legitimate JSON argument value) does not reach
the mediator as `args = input` — the coalescing `input || args || {}` uses JS
truthiness, not presence, and passes the `args` object instead. -/
theorem tool_args_presence_cex :
    onStepFinish [⟨str "id1", str "search", some (JsonVal.jstr []),
        some (JsonVal.jobj [(str "q", JsonVal.jnum 1)])⟩] =
      [⟨str "id1", str "search", JsonVal.jobj [(str "q", JsonVal.jnum 1)]⟩] ∧
    JsonVal.jobj [(str "q", JsonVal.jnum 1)] ≠ JsonVal.jstr [] := by
  exact ⟨rfl, fun h => nomatch h⟩

/-- Claim C8 (amended): every tool call discovered at a step finish reaches
the mediator with its id, name and the coalesced arguments, where the
arguments equal the `input` property when that is present and truthy,
otherwise the `args` property when that is present and truthy, and the empty
object when both are absent. -/
theorem tool_args_coalescing_amended :
    (∀ (toolCalls : List ToolCall) (tc : ToolCall), tc ∈ toolCalls →
      (⟨tc.toolCallId, tc.toolName, coalesceArgs tc⟩ : MediatorCall) ∈ onStepFinish toolCalls) ∧
    (∀ (tc : ToolCall) (v : JsonVal), tc.input = some v → v.truthy = true →
      coalesceArgs tc = v) ∧
    (∀ (tc : ToolCall) (w : JsonVal),
      (tc.input = none ∨ ∃ v, tc.input = some v ∧ v.truthy = false) →
      tc.args = some w → w.truthy = true → coalesceArgs tc = w) ∧
    (∀ tc : ToolCall, tc.input = none → tc.args = none →
      coalesceArgs tc = JsonVal.jobj []) := by
  refine ⟨?_, ?_, ?_, ?_⟩
  · intro toolCalls tc htc
    exact List.mem_map_of_mem _ htc
  · intro tc v hi ht
    simp [coalesceArgs, jsOrVal, hi, ht]
  · intro tc w hi ha ht
    rcases hi with hi | ⟨v, hi, hv⟩
    · simp [coalesceArgs, jsOrVal, hi, ha, ht]
    · simp [coalesceArgs, jsOrVal, hi, ha, ht, hv]
  · intro tc hi ha
    simp [coalesceArgs, jsOrVal, hi, ha]

/-- Claim C8, witness: a truthy `input` object is forwarded verbatim, and a
call with neither shape yields the empty object. -/
theorem tool_args_coalescing_amended_witness :
    coalesceArgs ⟨str "id", str "t", some (JsonVal.jobj [(str "a", JsonVal.jnum 2)]), none⟩ =
      JsonVal.jobj [(str "a", JsonVal.jnum 2)] ∧
    coalesceArgs ⟨str "id2", str "t2", none, none⟩ = JsonVal.jobj [] := by
  exact ⟨tool_args_coalescing_amended.2.1 _ _ rfl rfl,
         tool_args_coalescing_amended.2.2.2 _ rfl rfl⟩

/-! ## Case analysis of the generation `onFinish` callback -/

theorem onFinish_not_length (m : Nat) (cp dm dp : Str) (pm : List UIMsg)
    (st : ChatState) (inp : FinishInput) (h : ¬ inp.finishReason = str "length") :
    onFinish m cp dm dp pm st inp =
      .ok (writeProgress (str "response") (str "complete") (str "Response Generated")
            (writeEvent (.usage (accumUsage st.cumulativeUsage inp.usage))
              { st with cumulativeUsage := accumUsage st.cumulativeUsage inp.usage }),
           none) := by
  simp [onFinish, h]

theorem onFinish_budget_raises (m : Nat) (cp dm dp : Str) (pm : List UIMsg)
    (st : ChatState) (inp : FinishInput) (h1 : inp.finishReason = str "length")
    (h2 : m ≤ st.switches) :
    onFinish m cp dm dp pm st inp =
      .error (str "Cannot continue message: Maximum segments reached") := by
  simp [onFinish, h1, h2]

theorem onFinish_no_user (m : Nat) (cp dm dp : Str) (pm : List UIMsg)
    (st : ChatState) (inp : FinishInput) (h1 : inp.finishReason = str "length")
    (h2 : ¬ m ≤ st.switches)
    (h3 : (pm.filter fun mm => mm.role = .user).getLast? = none) :
    onFinish m cp dm dp pm st inp =
      .error (str "TypeError: cannot read properties of undefined") := by
  simp [onFinish, h1, h2, h3]

theorem onFinish_continuation (m : Nat) (cp dm dp : Str) (pm : List UIMsg)
    (st : ChatState) (inp : FinishInput) (lu : UIMsg)
    (h1 : inp.finishReason = str "length") (h2 : st.switches < m)
    (h3 : (pm.filter fun mm => mm.role = .user).getLast? = some lu) :
    onFinish m cp dm dp pm st inp =
      .ok ({ st with cumulativeUsage := accumUsage st.cumulativeUsage inp.usage },
        some ⟨convertToCoreMessages pm ++
          [⟨.assistant, inp.text⟩,
           ⟨.user, continuationDirective cp
             (extractPropertiesFromMessage dm dp (getMessageText lu)).1
             (extractPropertiesFromMessage dm dp (getMessageText lu)).2⟩]⟩) := by
  have h2' : ¬ m ≤ st.switches := Nat.not_le.mpr h2
  simp [onFinish, h1, h2', h3]

/-- Complete description of a successful `onFinish` invocation: the usage is
accumulated either way, the switch counter is never changed, and the handler
either (non-`length`) writes the cumulative usage event plus the
`response`/`complete` progress event and issues no call, or (`length`) writes
nothing and issues a continuation call. -/
theorem onFinish_ok_cases {m : Nat} {cp dm dp : Str} {pm : List UIMsg}
    {st st2 : ChatState} {inp : FinishInput} {call : Option ContinuationCall}
    (honF : onFinish m cp dm dp pm st inp = .ok (st2, call)) :
    st2.cumulativeUsage = accumUsage st.cumulativeUsage inp.usage ∧
    st2.switches = st.switches ∧
    (¬ inp.finishReason = str "length" ∧ call = none ∧
       st2.events = st.events ++
         [.usage (accumUsage st.cumulativeUsage inp.usage),
          .progress (str "response") (str "complete") st.progressCounter
            (str "Response Generated")] ∧
       st2.progressCounter = st.progressCounter + 1 ∨
     inp.finishReason = str "length" ∧ st2.events = st.events ∧
       st2.progressCounter = st.progressCounter ∧ call ≠ none) := by
  by_cases hr : inp.finishReason = str "length"
  · by_cases hb : m ≤ st.switches
    · rw [onFinish_budget_raises m cp dm dp pm st inp hr hb] at honF
      exact absurd honF (by simp)
    · cases hlast : (pm.filter fun mm => mm.role = .user).getLast? with
      | none =>
        rw [onFinish_no_user m cp dm dp pm st inp hr hb hlast] at honF
        exact absurd honF (by simp)
      | some lu =>
        rw [onFinish_continuation m cp dm dp pm st inp lu hr (Nat.not_le.mp hb) hlast] at honF
        simp only [Except.ok.injEq, Prod.mk.injEq] at honF
        obtain ⟨hst, hcall⟩ := honF
        subst hst
        refine ⟨rfl, rfl, Or.inr ⟨hr, rfl, rfl, ?_⟩⟩
        rw [← hcall]
        simp
  · rw [onFinish_not_length m cp dm dp pm st inp hr] at honF
    simp only [Except.ok.injEq, Prod.mk.injEq] at honF
    obtain ⟨hst, hcall⟩ := honF
    subst hst
    refine ⟨rfl, rfl, Or.inl ⟨hr, hcall.symm, ?_, rfl⟩⟩
    simp [writeProgress, writeEvent]

/-! ## Invariants of running the segments of one logical response -/

theorem runSegments_ok_state {m : Nat} {cp dm dp : Str} {pm : List UIMsg} :
    ∀ {segs : List FinishInput} {st st' : ChatState},
      runSegments m cp dm dp pm st segs = .ok st' →
      st'.cumulativeUsage =
        List.foldl accumUsage st.cumulativeUsage (segs.map FinishInput.usage) ∧
      st'.switches = st.switches ∧
      st.progressCounter ≤ st'.progressCounter := by
  intro segs
  induction segs with
  | nil =>
    intro st st' h
    unfold runSegments at h
    simp only [Except.ok.injEq] at h
    subst h
    simp
  | cons s rest ih =>
    intro st st' h
    unfold runSegments at h
    cases honF : onFinish m cp dm dp pm st s with
    | error e => rw [honF] at h; exact absurd h (by simp)
    | ok p =>
      obtain ⟨st1, call⟩ := p
      rw [honF] at h
      obtain ⟨hcum, hsw, hcases⟩ := onFinish_ok_cases honF
      obtain ⟨hc', hs', hp'⟩ := ih h
      refine ⟨?_, by rw [hs', hsw], ?_⟩
      · rw [hc', hcum]
        simp
      · rcases hcases with ⟨_, _, _, hpc⟩ | ⟨_, _, hpc, _⟩ <;> omega

theorem progressOrders_append (es fs : List StreamEvent) :
    progressOrders (es ++ fs) = progressOrders es ++ progressOrders fs := by
  simp [progressOrders, List.filterMap_append]

theorem usageValues_append (es fs : List StreamEvent) :
    usageValues (es ++ fs) = usageValues es ++ usageValues fs := by
  simp [usageValues, List.filterMap_append]

theorem progressLabels_append (es fs : List StreamEvent) :
    progressLabels (es ++ fs) = progressLabels es ++ progressLabels fs := by
  simp [progressLabels, List.filterMap_append]

/-- The invariant behind claim C5: the `order` values of the progress events
written so far are exactly `1, 2, ..., progressCounter - 1`. -/
def ordersOk (st : ChatState) : Prop :=
  progressOrders st.events = List.range' 1 (st.progressCounter - 1) ∧
  1 ≤ st.progressCounter

theorem ordersOk_onFinish {m : Nat} {cp dm dp : Str} {pm : List UIMsg}
    {st st2 : ChatState} {inp : FinishInput} {call : Option ContinuationCall}
    (honF : onFinish m cp dm dp pm st inp = .ok (st2, call))
    (h : ordersOk st) : ordersOk st2 := by
  obtain ⟨horders, hge⟩ := h
  obtain ⟨_, _, hcases⟩ := onFinish_ok_cases honF
  rcases hcases with ⟨_, _, hev, hpc⟩ | ⟨_, hev, hpc, _⟩
  · refine ⟨?_, by omega⟩
    rw [hev, progressOrders_append, horders, hpc]
    have h1 : progressOrders
        [StreamEvent.usage (accumUsage st.cumulativeUsage inp.usage),
         StreamEvent.progress (str "response") (str "complete") st.progressCounter
           (str "Response Generated")] = [st.progressCounter] := by
      simp [progressOrders]
    rw [h1]
    have h2 := List.range'_append_1 1 (st.progressCounter - 1) 1
    simp only [List.range'_one] at h2
    have h3 : 1 + (st.progressCounter - 1) = st.progressCounter := by omega
    rw [h3] at h2
    have h4 : st.progressCounter + 1 - 1 = st.progressCounter := by omega
    rw [h4, ← h2]
  · refine ⟨?_, by omega⟩
    rw [hev, hpc]
    exact horders

theorem runSegments_ordersOk {m : Nat} {cp dm dp : Str} {pm : List UIMsg} :
    ∀ {segs : List FinishInput} {st st' : ChatState},
      runSegments m cp dm dp pm st segs = .ok st' →
      ordersOk st → ordersOk st' := by
  intro segs
  induction segs with
  | nil =>
    intro st st' h hok
    unfold runSegments at h
    simp only [Except.ok.injEq] at h
    subst h
    exact hok
  | cons s rest ih =>
    intro st st' h hok
    unfold runSegments at h
    cases honF : onFinish m cp dm dp pm st s with
    | error e => rw [honF] at h; exact absurd h (by simp)
    | ok p =>
      obtain ⟨st1, call⟩ := p
      rw [honF] at h
      exact ih h (ordersOk_onFinish honF hok)

/-- Over the segments of a successful logical response — every segment but
the last cut off by `length`, the last one finishing naturally — the run
appends exactly the final cumulative usage event and the one
`response`/`complete` progress event, and nothing else. -/
theorem runSegments_tail_events {m : Nat} {cp dm dp : Str} {pm : List UIMsg} :
    ∀ {segs : List FinishInput} {st st' : ChatState},
      runSegments m cp dm dp pm st segs = .ok st' →
      segs ≠ [] →
      (∀ s ∈ segs.dropLast, s.finishReason = str "length") →
      (∀ s, segs.getLast? = some s → ¬ s.finishReason = str "length") →
      st'.events = st.events ++
        [.usage st'.cumulativeUsage,
         .progress (str "response") (str "complete") st.progressCounter
           (str "Response Generated")] := by
  intro segs
  induction segs with
  | nil => intro st st' _ hne _ _; exact absurd rfl hne
  | cons s rest ih =>
    intro st st' h _ hdrop hlast
    unfold runSegments at h
    cases honF : onFinish m cp dm dp pm st s with
    | error e => rw [honF] at h; exact absurd h (by simp)
    | ok p =>
      obtain ⟨st1, call⟩ := p
      rw [honF] at h
      obtain ⟨hcum, _, hcases⟩ := onFinish_ok_cases honF
      cases rest with
      | nil =>
        have hs : ¬ s.finishReason = str "length" := hlast s rfl
        rcases hcases with ⟨_, _, hev, _⟩ | ⟨hlen, _, _, _⟩
        · unfold runSegments at h
          simp only [Except.ok.injEq] at h
          subst h
          rw [hev, hcum]
        · exact absurd hlen hs
      | cons r rest' =>
        have hs : s.finishReason = str "length" := by
          apply hdrop
          rw [List.dropLast_cons₂]
          exact List.mem_cons_self s _
        rcases hcases with ⟨hnl, _, _, _⟩ | ⟨_, hev, hpc, _⟩
        · exact absurd hs hnl
        · have hrec := ih h (by simp)
            (fun x hx => hdrop x (by
              rw [List.dropLast_cons₂]
              exact List.mem_cons_of_mem s hx))
            (fun x hx => hlast x (by rw [List.getLast?_cons_cons]; exact hx))
          rw [hrec, hev, hpc]

/-- Segments cut off by `length` write nothing to the client stream: their
usage is accumulated but no event is emitted. -/
theorem runSegments_all_length_events {m : Nat} {cp dm dp : Str} {pm : List UIMsg} :
    ∀ {segs : List FinishInput} {st st' : ChatState},
      runSegments m cp dm dp pm st segs = .ok st' →
      (∀ s ∈ segs, s.finishReason = str "length") →
      st'.events = st.events ∧ st'.progressCounter = st.progressCounter := by
  intro segs
  induction segs with
  | nil =>
    intro st st' h _
    unfold runSegments at h
    simp only [Except.ok.injEq] at h
    subst h
    exact ⟨rfl, rfl⟩
  | cons s rest ih =>
    intro st st' h hall
    unfold runSegments at h
    cases honF : onFinish m cp dm dp pm st s with
    | error e => rw [honF] at h; exact absurd h (by simp)
    | ok p =>
      obtain ⟨st1, call⟩ := p
      rw [honF] at h
      obtain ⟨_, _, hcases⟩ := onFinish_ok_cases honF
      rcases hcases with ⟨hnl, _, _, _⟩ | ⟨_, hev, hpc, _⟩
      · exact absurd (hall s (List.mem_cons_self s rest)) hnl
      · obtain ⟨he', hp'⟩ := ih h (fun x hx => hall x (List.mem_cons_of_mem s hx))
        exact ⟨by rw [he', hev], by rw [hp', hpc]⟩

/-- Folding the accumulation over present usage reports adds the componentwise
sums of the per-call readings. -/
theorem accumUsage_foldl (c : Usage) (us : List UsageRaw) :
    List.foldl accumUsage c (us.map some) =
      { completionTokens := c.completionTokens + (us.map readCompletionTokens).sum
        promptTokens := c.promptTokens + (us.map readPromptTokens).sum
        totalTokens := c.totalTokens + (us.map readTotalTokens).sum } := by
  induction us generalizing c with
  | nil => simp
  | cons u rest ih =>
    simp only [List.map_cons, List.foldl_cons, List.sum_cons, ih]
    simp [accumUsage, jsOrZero_eq]
    refine ⟨by ring, by ring, by ring⟩

/-! ## The `execute` body up to the first model call -/

/-- With files present and `contextOptimization` on, the pre-generation phase
emits the five progress/content events in order 1–5, accumulates the summary
and selection usage, and reaches the first model call with the processed
messages and the selected context files. -/
theorem executePre_optimizing (workDir : Str) (pti : List UIMsg → List UIMsg)
    (oracle : ContextOracle) (req : ChatRequest)
    (hfiles : req.files ≠ []) (hopt : req.contextOptimization = true) :
    executePre workDir pti oracle req =
      ⟨{ cumulativeUsage := accumUsage (accumUsage Usage.zero oracle.summaryUsage)
           oracle.selectUsage
         progressCounter := 6
         switches := 0
         events := [.progress (str "summary") (str "in-progress") 1 (str "Analysing Request"),
                    .progress (str "summary") (str "complete") 2 (str "Analysis Complete"),
                    .chatSummary oracle.summary ((pti req.messages).getLast?.map UIMsg.id),
                    .progress (str "context") (str "in-progress") 3 (str "Determining Files to Read"),
                    .codeContext ((oracle.filteredFiles.map Prod.fst).map (stripWorkDir workDir)),
                    .progress (str "context") (str "complete") 4 (str "Code Files Selected"),
                    .progress (str "response") (str "in-progress") 5 (str "Generating Response")] },
       pti req.messages, convertToCoreMessages (pti req.messages),
       some oracle.filteredFiles, some oracle.summary,
       if 3 < (pti req.messages).length then (pti req.messages).length - 3 else 0⟩ := by
  have hne : getFilePaths req.files ≠ [] := by
    simp [getFilePaths]
    exact hfiles
  simp [executePre, hne, hopt, writeProgress, writeEvent, initialState]

/-- With the optimization disabled or no files, the pre-generation phase
emits only the `response` in-progress event and forwards the processed
messages untouched. -/
theorem executePre_skip (workDir : Str) (pti : List UIMsg → List UIMsg)
    (oracle : ContextOracle) (req : ChatRequest)
    (h : req.contextOptimization = false ∨ req.files = []) :
    executePre workDir pti oracle req =
      ⟨{ cumulativeUsage := Usage.zero
         progressCounter := 2
         switches := 0
         events := [.progress (str "response") (str "in-progress") 1 (str "Generating Response")] },
       pti req.messages, convertToCoreMessages (pti req.messages), none, none,
       if 3 < (pti req.messages).length then (pti req.messages).length - 3 else 0⟩ := by
  rcases h with h | h
  · simp [executePre, h, writeProgress, initialState]
  · simp [executePre, h, getFilePaths, writeProgress, initialState]

theorem ordersOk_executePre (workDir : Str) (pti : List UIMsg → List UIMsg)
    (oracle : ContextOracle) (req : ChatRequest) :
    ordersOk (executePre workDir pti oracle req).st := by
  by_cases hopt : req.files ≠ [] ∧ req.contextOptimization = true
  · rw [executePre_optimizing workDir pti oracle req hopt.1 hopt.2]
    refine ⟨?_, by norm_num⟩
    first
    | (simp [progressOrders]; done)
    | (simp [progressOrders]; decide)
  · have h : req.contextOptimization = false ∨ req.files = [] := by
      rcases Decidable.not_and_iff_or_not.mp hopt with h | h
      · exact Or.inr (not_not.mp h)
      · exact Or.inl (Bool.not_eq_true _ ▸ h)
    rw [executePre_skip workDir pti oracle req h]
    refine ⟨?_, by norm_num⟩
    simp [progressOrders]

theorem executePre_counter_ge (workDir : Str) (pti : List UIMsg → List UIMsg)
    (oracle : ContextOracle) (req : ChatRequest) :
    2 ≤ (executePre workDir pti oracle req).st.progressCounter := by
  by_cases hopt : req.files ≠ [] ∧ req.contextOptimization = true
  · rw [executePre_optimizing workDir pti oracle req hopt.1 hopt.2]
    norm_num
  · have h : req.contextOptimization = false ∨ req.files = [] := by
      rcases Decidable.not_and_iff_or_not.mp hopt with h | h
      · exact Or.inr (not_not.mp h)
      · exact Or.inl (Bool.not_eq_true _ ▸ h)
    rw [executePre_skip workDir pti oracle req h]

/-! ## The claims -/

/-- Claim C1: on a `length` finish within budget the handler issues exactly
one continuation call, whose message list is the processed conversation plus
exactly two messages — the assistant message carrying the partial text and
the user message carrying the continuation directive — with the directive's
model and provider extracted from the most recent user message of the
processed conversation (the request defaults are not consulted when the
directive tags are present). The final conjunct records what the code
actually does to the switch counter: it is left unchanged (`stream.switches`
is read at lines 355 and 359 but `SwitchableStream.switchSource` is never
called), where the claim and spec require an increment of exactly one per
continuation. -/
theorem onFinish_length_continuation_behavior
    (m : Nat) (cp dm dp : Str) (pm : List UIMsg) (st : ChatState)
    (inp : FinishInput) (lu : UIMsg)
    (hreason : inp.finishReason = str "length") (hbudget : st.switches < m)
    (hlast : (pm.filter fun mm => mm.role = .user).getLast? = some lu) :
    onFinish m cp dm dp pm st inp =
      .ok ({ st with cumulativeUsage := accumUsage st.cumulativeUsage inp.usage },
        some ⟨convertToCoreMessages pm ++
          [⟨.assistant, inp.text⟩,
           ⟨.user, continuationDirective cp
             (extractPropertiesFromMessage dm dp (getMessageText lu)).1
             (extractPropertiesFromMessage dm dp (getMessageText lu)).2⟩]⟩) ∧
    (∀ mdl prov : Str,
      extractTag (str "[Model: ") (getMessageText lu) = some mdl →
      extractTag (str "[Provider: ") (getMessageText lu) = some prov →
      continuationDirective cp
          (extractPropertiesFromMessage dm dp (getMessageText lu)).1
          (extractPropertiesFromMessage dm dp (getMessageText lu)).2 =
        str "[Model: " ++ mdl ++ str "]\n\n[Provider: " ++ prov ++ str "]\n\n" ++ cp) ∧
    (∀ (st2 : ChatState) (call : Option ContinuationCall),
      onFinish m cp dm dp pm st inp = .ok (st2, call) → st2.switches = st.switches) := by
  refine ⟨onFinish_continuation m cp dm dp pm st inp lu hreason hbudget hlast, ?_, ?_⟩
  · intro mdl prov hm hp
    simp [extractPropertiesFromMessage, hm, hp, continuationDirective]
  · intro st2 call honF
    exact (onFinish_ok_cases honF).2.1

/-- Claim C1, witness: a concrete conversation pinned to `[Model: gpt-4]` /
`[Provider: OpenAI]`, a `length` finish at switch count 0 and budget 2. -/
theorem onFinish_length_continuation_behavior_witness :
    onFinish 2 (str "CONT") (str "dm") (str "dp")
      [⟨str "1", Role.user, [⟨str "text", str "[Model: gpt-4]\n\n[Provider: OpenAI]\n\nhello"⟩]⟩]
      initialState ⟨str "partial", str "length", none⟩ =
      .ok ({ initialState with
               cumulativeUsage := accumUsage initialState.cumulativeUsage none },
        some ⟨convertToCoreMessages
            [⟨str "1", Role.user, [⟨str "text", str "[Model: gpt-4]\n\n[Provider: OpenAI]\n\nhello"⟩]⟩] ++
          [⟨.assistant, str "partial"⟩,
           ⟨.user, continuationDirective (str "CONT")
             (extractPropertiesFromMessage (str "dm") (str "dp")
               (getMessageText ⟨str "1", Role.user,
                 [⟨str "text", str "[Model: gpt-4]\n\n[Provider: OpenAI]\n\nhello"⟩]⟩)).1
             (extractPropertiesFromMessage (str "dm") (str "dp")
               (getMessageText ⟨str "1", Role.user,
                 [⟨str "text", str "[Model: gpt-4]\n\n[Provider: OpenAI]\n\nhello"⟩]⟩)).2⟩]⟩) :=
  (onFinish_length_continuation_behavior 2 (str "CONT") (str "dm") (str "dp")
    [⟨str "1", Role.user, [⟨str "text", str "[Model: gpt-4]\n\n[Provider: OpenAI]\n\nhello"⟩]⟩]
    initialState ⟨str "partial", str "length", none⟩
    ⟨str "1", Role.user, [⟨str "text", str "[Model: gpt-4]\n\n[Provider: OpenAI]\n\nhello"⟩]⟩
    (by decide) (by decide) (by decide)).1

/-- Claim C2: a `length` finish with the switch counter at or above
`MAX_RESPONSE_SEGMENTS` throws the terminal "maximum segments reached" error
and issues no further model call. -/
theorem onFinish_budget_exhausted
    (m : Nat) (cp dm dp : Str) (pm : List UIMsg) (st : ChatState) (inp : FinishInput)
    (hreason : inp.finishReason = str "length") (hbudget : m ≤ st.switches) :
    onFinish m cp dm dp pm st inp =
      .error (str "Cannot continue message: Maximum segments reached") ∧
    ∀ (st2 : ChatState) (call : Option ContinuationCall),
      onFinish m cp dm dp pm st inp ≠ .ok (st2, call) := by
  refine ⟨onFinish_budget_raises m cp dm dp pm st inp hreason hbudget, ?_⟩
  intro st2 call h
  rw [onFinish_budget_raises m cp dm dp pm st inp hreason hbudget] at h
  exact absurd h (by simp)

/-- Claim C2, witness: budget 2, switch counter already 2. -/
theorem onFinish_budget_exhausted_witness :
    onFinish 2 (str "CONT") (str "dm") (str "dp") []
      { cumulativeUsage := Usage.zero, progressCounter := 1, switches := 2, events := [] }
      ⟨str "partial", str "length", none⟩ =
      .error (str "Cannot continue message: Maximum segments reached") :=
  (onFinish_budget_exhausted 2 (str "CONT") (str "dm") (str "dp") []
    { cumulativeUsage := Usage.zero, progressCounter := 1, switches := 2, events := [] }
    ⟨str "partial", str "length", none⟩ (by decide) (by decide)).1

/-- Claim C3: usage accumulation is additive. Folding the accumulator over
any sequence of reported usages yields the componentwise sums, where each
sub-call's prompt/completion counts fall back from `promptTokens` /
`completionTokens` to `inputTokens` / `outputTokens` and then to 0, and each
sub-call's total is the provider's `totalTokens` verbatim when present and
`promptTokens + completionTokens` otherwise; and over the full pipeline
(summary sub-call, selection sub-call, then the generation segments) the one
emitted usage event carries exactly those sums. -/
theorem cumulative_usage_additive :
    (∀ us : List UsageRaw,
      List.foldl accumUsage Usage.zero (us.map some) =
        { completionTokens := (us.map readCompletionTokens).sum
          promptTokens := (us.map readPromptTokens).sum
          totalTokens := (us.map readTotalTokens).sum }) ∧
    (∀ u : UsageRaw, ∀ t : Int, u.totalTokens = some t → readTotalTokens u = t) ∧
    (∀ u : UsageRaw, u.totalTokens = none →
      readTotalTokens u = readPromptTokens u + readCompletionTokens u) ∧
    (∀ u : UsageRaw, ∀ v : Int, u.promptTokens = none → u.inputTokens = some v →
      readPromptTokens u = v) ∧
    (∀ u : UsageRaw, u.completionTokens = none → u.outputTokens = none →
      readCompletionTokens u = 0) ∧
    (∀ (workDir cp dm dp : Str) (pti : List UIMsg → List UIMsg)
       (oracle : ContextOracle) (req : ChatRequest) (m : Nat)
       (segs : List FinishInput) (st' : ChatState) (u1 u2 : UsageRaw) (us : List UsageRaw),
      req.files ≠ [] → req.contextOptimization = true →
      oracle.summaryUsage = some u1 → oracle.selectUsage = some u2 →
      segs.map FinishInput.usage = us.map some →
      runSegments m cp dm dp (executePre workDir pti oracle req).processedMessages
        (executePre workDir pti oracle req).st segs = .ok st' →
      segs ≠ [] →
      (∀ s ∈ segs.dropLast, s.finishReason = str "length") →
      (∀ s, segs.getLast? = some s → ¬ s.finishReason = str "length") →
      usageValues st'.events =
        [{ completionTokens := ((u1 :: u2 :: us).map readCompletionTokens).sum
           promptTokens := ((u1 :: u2 :: us).map readPromptTokens).sum
           totalTokens := ((u1 :: u2 :: us).map readTotalTokens).sum }]) := by
  refine ⟨?_, ?_, ?_, ?_, ?_, ?_⟩
  · intro us
    rw [accumUsage_foldl Usage.zero us]
    simp [Usage.zero]
  · intro u t h
    simp [readTotalTokens, h]
  · intro u h
    simp [readTotalTokens, h]
  · intro u v h1 h2
    simp [readPromptTokens, h1, h2]
  · intro u h1 h2
    simp [readCompletionTokens, h1, h2]
  · intro workDir cp dm dp pti oracle req m segs st' u1 u2 us
    intro hfiles hopt hu1 hu2 hus hrun hne hdrop hlast
    have hpre := executePre_optimizing workDir pti oracle req hfiles hopt
    have hcum := (runSegments_ok_state hrun).1
    have hev := runSegments_tail_events hrun hne hdrop hlast
    have hstart : (executePre workDir pti oracle req).st.cumulativeUsage =
        List.foldl accumUsage Usage.zero [some u1, some u2] := by
      rw [hpre]
      simp [hu1, hu2]
    have hcum' : st'.cumulativeUsage =
        List.foldl accumUsage Usage.zero ((u1 :: u2 :: us).map some) := by
      rw [hcum, hstart, hus]
      simp
    have hnousage : usageValues (executePre workDir pti oracle req).st.events = [] := by
      rw [hpre]
      simp [usageValues]
    rw [hev, usageValues_append, hnousage]
    rw [hcum', accumUsage_foldl Usage.zero (u1 :: u2 :: us)]
    simp [usageValues, Usage.zero]

/-- Claim C4: with `contextOptimization` disabled or an empty file set, the
pre-generation phase emits only the `response` in-progress event — no
`summary`/`context` progress events and no `chatSummary`/`codeContext`
events — and the first model call receives the processed message list in
full; when the tool mediator has nothing to resolve, that is exactly the
original message list, unmodified. -/
theorem context_optimization_skip
    (workDir : Str) (pti : List UIMsg → List UIMsg) (oracle : ContextOracle)
    (req : ChatRequest) (h : req.contextOptimization = false ∨ req.files = []) :
    (executePre workDir pti oracle req).st.events =
      [.progress (str "response") (str "in-progress") 1 (str "Generating Response")] ∧
    progressLabels (executePre workDir pti oracle req).st.events = [str "response"] ∧
    ((executePre workDir pti oracle req).st.events.filter isContextEvent) = [] ∧
    (executePre workDir pti oracle req).firstCallMessages =
      convertToCoreMessages (pti req.messages) ∧
    (executePre workDir pti oracle req).contextFiles = none ∧
    (executePre workDir pti oracle req).summary = none ∧
    (pti req.messages = req.messages →
      (executePre workDir pti oracle req).firstCallMessages =
        convertToCoreMessages req.messages) := by
  rw [executePre_skip workDir pti oracle req h]
  refine ⟨rfl, by simp [progressLabels], by simp [isContextEvent], rfl, rfl, rfl, ?_⟩
  intro hpti
  simp [hpti]

/-- Claim C4, witness: a request with files but the optimization flag off,
and a mediator with nothing to resolve. -/
theorem context_optimization_skip_witness :
    (executePre (str "/home/project") id
        ⟨str "s", none, [], none⟩
        ⟨[⟨str "1", Role.user, [⟨str "text", str "hi"⟩]⟩],
         [(str "/home/project/a.ts", str "x")], false⟩).st.events =
      [.progress (str "response") (str "in-progress") 1 (str "Generating Response")] ∧
    (executePre (str "/home/project") id
        ⟨str "s", none, [], none⟩
        ⟨[⟨str "1", Role.user, [⟨str "text", str "hi"⟩]⟩],
         [(str "/home/project/a.ts", str "x")], false⟩).firstCallMessages =
      convertToCoreMessages [⟨str "1", Role.user, [⟨str "text", str "hi"⟩]⟩] := by
  have h := context_optimization_skip (str "/home/project") id
    ⟨str "s", none, [], none⟩
    ⟨[⟨str "1", Role.user, [⟨str "text", str "hi"⟩]⟩],
     [(str "/home/project/a.ts", str "x")], false⟩ (Or.inl rfl)
  exact ⟨h.1, h.2.2.2.2.2.2 rfl⟩

/-- Claim C5: across one response stream — the pre-generation phase followed
by any successful sequence of segment finishes — the `order` values of the
emitted progress events are exactly `1, 2, ..., n`: strictly increasing and
starting at 1. -/
theorem progress_orders_strictly_increasing
    (workDir cp dm dp : Str) (pti : List UIMsg → List UIMsg) (oracle : ContextOracle)
    (req : ChatRequest) (m : Nat) (segs : List FinishInput) (st' : ChatState)
    (hrun : runSegments m cp dm dp (executePre workDir pti oracle req).processedMessages
      (executePre workDir pti oracle req).st segs = .ok st') :
    progressOrders st'.events = List.range' 1 (progressOrders st'.events).length ∧
    List.Pairwise (· < ·) (progressOrders st'.events) ∧
    (progressOrders st'.events).head? = some 1 := by
  obtain ⟨heq, hge⟩ := runSegments_ordersOk hrun (ordersOk_executePre workDir pti oracle req)
  have hlen : (progressOrders st'.events).length = st'.progressCounter - 1 := by
    rw [heq, List.length_range']
  refine ⟨by rw [hlen, heq], by rw [heq]; exact List.pairwise_lt_range' 1 _, ?_⟩
  have hpre := executePre_counter_ge workDir pti oracle req
  have hmono := (runSegments_ok_state hrun).2.2
  have h2 : 2 ≤ st'.progressCounter := le_trans hpre hmono
  have hsplit : st'.progressCounter - 1 = (st'.progressCounter - 2) + 1 := by omega
  rw [heq, hsplit, List.range'_succ]
  rfl

/-- Claim C5, witness: a skip-branch request followed by one naturally
finished segment emits progress orders `[1, 2]`. -/
theorem progress_orders_strictly_increasing_witness :
    progressOrders
        ({ cumulativeUsage := Usage.zero, progressCounter := 3, switches := 0,
           events := [.progress (str "response") (str "in-progress") 1 (str "Generating Response"),
                      .usage Usage.zero,
                      .progress (str "response") (str "complete") 2 (str "Response Generated")] } : ChatState).events =
      List.range' 1 (progressOrders
        ({ cumulativeUsage := Usage.zero, progressCounter := 3, switches := 0,
           events := [.progress (str "response") (str "in-progress") 1 (str "Generating Response"),
                      .usage Usage.zero,
                      .progress (str "response") (str "complete") 2 (str "Response Generated")] } : ChatState).events).length ∧
    List.Pairwise (· < ·) (progressOrders
        ({ cumulativeUsage := Usage.zero, progressCounter := 3, switches := 0,
           events := [.progress (str "response") (str "in-progress") 1 (str "Generating Response"),
                      .usage Usage.zero,
                      .progress (str "response") (str "complete") 2 (str "Response Generated")] } : ChatState).events) ∧
    (progressOrders
        ({ cumulativeUsage := Usage.zero, progressCounter := 3, switches := 0,
           events := [.progress (str "response") (str "in-progress") 1 (str "Generating Response"),
                      .usage Usage.zero,
                      .progress (str "response") (str "complete") 2 (str "Response Generated")] } : ChatState).events).head? = some 1 :=
  progress_orders_strictly_increasing (str "") (str "CONT") (str "dm") (str "dp") id
    ⟨str "s", none, [], none⟩
    ⟨[⟨str "1", Role.user, [⟨str "text", str "hi"⟩]⟩], [], false⟩
    2 [⟨str "hi there", str "stop", none⟩]
    { cumulativeUsage := Usage.zero, progressCounter := 3, switches := 0,
      events := [.progress (str "response") (str "in-progress") 1 (str "Generating Response"),
                 .usage Usage.zero,
                 .progress (str "response") (str "complete") 2 (str "Response Generated")] }
    (by rfl)

/-- Claim C9: the cumulative usage event and the `response`/`complete`
progress event are written exactly when a segment finishes with a reason
other than `length`; a `length` finish accumulates the segment's usage but
writes nothing. Consequently a successful multi-segment response — every
segment but the last cut off by `length` — emits exactly one usage event,
after its final segment, carrying the cumulative totals. -/
theorem usage_event_iff_natural_finish :
    (∀ (m : Nat) (cp dm dp : Str) (pm : List UIMsg) (st st2 : ChatState)
       (inp : FinishInput) (call : Option ContinuationCall),
      onFinish m cp dm dp pm st inp = .ok (st2, call) →
      (¬ inp.finishReason = str "length" →
        st2.events = st.events ++
          [.usage (accumUsage st.cumulativeUsage inp.usage),
           .progress (str "response") (str "complete") st.progressCounter
             (str "Response Generated")] ∧ call = none) ∧
      (inp.finishReason = str "length" →
        st2.events = st.events ∧
        st2.cumulativeUsage = accumUsage st.cumulativeUsage inp.usage)) ∧
    (∀ (m : Nat) (cp dm dp : Str) (pm : List UIMsg) (st st' : ChatState)
       (segs : List FinishInput),
      runSegments m cp dm dp pm st segs = .ok st' →
      (∀ s ∈ segs, s.finishReason = str "length") →
      st'.events = st.events) ∧
    (∀ (m : Nat) (cp dm dp : Str) (pm : List UIMsg) (st st' : ChatState)
       (segs : List FinishInput),
      runSegments m cp dm dp pm st segs = .ok st' →
      segs ≠ [] →
      (∀ s ∈ segs.dropLast, s.finishReason = str "length") →
      (∀ s, segs.getLast? = some s → ¬ s.finishReason = str "length") →
      usageValues st.events = [] →
      usageValues st'.events = [st'.cumulativeUsage]) := by
  refine ⟨?_, ?_, ?_⟩
  · intro m cp dm dp pm st st2 inp call honF
    obtain ⟨hcum, _, hcases⟩ := onFinish_ok_cases honF
    constructor
    · intro hnl
      rcases hcases with ⟨_, hc, hev, _⟩ | ⟨hl, _, _, _⟩
      · exact ⟨hev, hc⟩
      · exact absurd hl hnl
    · intro hl
      rcases hcases with ⟨hnl, _, _, _⟩ | ⟨_, hev, _, _⟩
      · exact absurd hl hnl
      · exact ⟨hev, hcum⟩
  · intro m cp dm dp pm st st' segs hrun hall
    exact (runSegments_all_length_events hrun hall).1
  · intro m cp dm dp pm st st' segs hrun hne hdrop hlast hnous
    have hev := runSegments_tail_events hrun hne hdrop hlast
    rw [hev, usageValues_append, hnous]
    simp [usageValues]

/-! ## Sanity checks of the embedding on concrete inputs -/

theorem sanity_parseCookies_basic :
    parseCookies (str "a=b; c=d") = some [(str "a", str "b"), (str "c", str "d")] ∧
    parseCookies (str "a") = some [(str "a", [])] ∧
    parseCookies (str "=x") = some [] ∧
    parseCookies (str "a=%41") = some [(str "a", str "A")] ∧
    parseCookies (str "") = some [] := by
  refine ⟨by decide, by decide, by decide, by decide, by decide⟩

theorem sanity_classifyError :
    classifyError (str "hit the rate limit") = ErrBucket.rateLimit ∧
    classifyError (str "something odd") = ErrBucket.unknown ∧
    classifyError (str "model gpt-x not found") = ErrBucket.invalidModel := by
  refine ⟨by decide, by decide, by decide⟩

theorem sanity_extractProperties :
    extractPropertiesFromMessage (str "dm") (str "dp")
      (str "[Model: gpt-4]\n\n[Provider: OpenAI]\n\nhello") = (str "gpt-4", str "OpenAI") ∧
    extractPropertiesFromMessage (str "dm") (str "dp") (str "no directive here") =
      (str "dm", str "dp") := by
  refine ⟨by decide, by decide⟩

theorem sanity_onFinish_continuation_concrete :
    onFinish 2 (str "CONT") (str "dm") (str "dp")
      [⟨str "1", Role.user, [⟨str "text", str "[Model: m]\n\n[Provider: p]\n\nq"⟩]⟩]
      initialState ⟨str "partial", str "length", none⟩ =
    Except.ok ({ initialState with cumulativeUsage := Usage.zero },
      some ⟨[⟨Role.user, str "[Model: m]\n\n[Provider: p]\n\nq"⟩,
             ⟨Role.assistant, str "partial"⟩,
             ⟨Role.user, str "[Model: m]\n\n[Provider: p]\n\nCONT"⟩]⟩) := by
  rfl

end ApiChat
